import Mathlib

/-!
Verification development for the session file-change tracking and diff
computation pipeline of the craft-agents desktop client.

The definitions below are shallow embeddings of:
  * `getSessionTouchedFiles`, `countLineDifferences`, `getChangeStatus`,
    `isToolMessage` and the `SessionFileChange` data model from
    `packages/ui/src/components/code-viewer/ShikiDiffViewer.tsx`;
  * `isGitRepo`, `getOriginalFromHead`, `getCurrentFromDisk`, `hasChanges`
    and `getFileDiff` from `apps/electron/src/main/git.ts`.

Effectful operations (git subprocess calls, file-system reads) are embedded
by passing an explicit `GitWorld` describing the outcome of each external
call; JavaScript dynamic values appearing in tool inputs are embedded by the
`JValue` type together with JavaScript truthiness.
-/

namespace Craft

/-- Auxiliary loop of `jsSplit`: walk the character list, emitting the
accumulated (reversed) chunk at each separator. -/
def jsSplitAux (sep : Char) : List Char → List Char → List String
  | [], acc => [String.mk acc.reverse]
  | c :: cs, acc =>
    if c = sep then String.mk acc.reverse :: jsSplitAux sep cs []
    else jsSplitAux sep cs (c :: acc)

/-- Model of JavaScript `s.split(sep)` for a single-character separator:
`"".split('\n')` is `[""]`, and a trailing separator yields a trailing
empty chunk, exactly as in JavaScript. -/
def jsSplit (sep : Char) (s : String) : List String :=
  jsSplitAux sep s.data []

/-- Model of JavaScript `s.trim()`: remove leading and trailing whitespace
characters. -/
def jsTrim (s : String) : String :=
  String.mk (((s.data.dropWhile Char.isWhitespace).reverse.dropWhile
    Char.isWhitespace).reverse)

/-- Model of JavaScript `s.toLowerCase()` for ASCII strings: lowercase every
character. -/
def jsToLowerCase (s : String) : String :=
  String.mk (s.data.map Char.toLower)

/-- JavaScript runtime values that can appear in a tool-input field.
`vUndef` stands both for an explicit `undefined` and for an absent key. -/
inductive JValue where
  | vStr (s : String)
  | vNum (n : Int)
  | vBool (b : Bool)
  | vNull
  | vUndef
deriving DecidableEq, Repr

/-- JavaScript truthiness of a `JValue`: empty string, zero, `false`,
`null` and `undefined` are falsy, everything else is truthy. -/
def truthy : JValue → Bool
  | JValue.vStr s => s ≠ ""
  | JValue.vNum n => n ≠ 0
  | JValue.vBool b => b
  | JValue.vNull => false
  | JValue.vUndef => false

/-- JavaScript `a || b`: the left operand if it is truthy, else the right. -/
def jsOr (a b : JValue) : JValue :=
  if truthy a then a else b

/-- Property access `input[key]` on a tool-input object: the stored value,
or `undefined` when the key is absent. -/
def lookupField (input : List (String × JValue)) (key : String) : JValue :=
  match input.find? (fun p => p.1 == key) with
  | some p => p.2
  | none => JValue.vUndef

/-- Embedding of the `MessageLike` record of `ShikiDiffViewer.tsx`:
an optional `type` discriminator (StoredMessage shape), an optional `role`
discriminator (Message shape), an optional tool name and an optional
tool-input object. `none` models an absent / `undefined` field. -/
structure MessageLike where
  type? : Option String := none
  role? : Option String := none
  toolName? : Option String := none
  toolInput? : Option (List (String × JValue)) := none
deriving DecidableEq

/-- Embedding of `isToolMessage`: `msg.type === 'tool' || msg.role === 'tool'`. -/
def isToolMessage (msg : MessageLike) : Bool :=
  msg.type? == some "tool" || msg.role? == some "tool"

/-- Embedding of the `FILE_MODIFYING_TOOLS` constant. -/
def FILE_MODIFYING_TOOLS : List String := ["edit", "write", "multiedit"]

/-- Embedding of the loop body of `getSessionTouchedFiles`: the path (if any)
that a single message adds to the `files` set.  Mirrors
`if (!isToolMessage(msg) || !msg.toolInput) continue;`
`const toolName = msg.toolName?.toLowerCase();`
`if (!toolName || !FILE_MODIFYING_TOOLS.includes(toolName)) continue;`
`const filePath = msg.toolInput.file_path || msg.toolInput.path;`
`if (typeof filePath === 'string' && filePath.trim()) files.add(filePath);`. -/
def extractPath (msg : MessageLike) : Option String :=
  if !(isToolMessage msg) then none else
  match msg.toolInput? with
  | none => none
  | some input =>
    match msg.toolName? with
    | none => none
    | some rawName =>
      let toolName := jsToLowerCase rawName
      if toolName == "" || !(FILE_MODIFYING_TOOLS.contains toolName) then none
      else
        match jsOr (lookupField input "file_path") (lookupField input "path") with
        | JValue.vStr s => if jsTrim s ≠ "" then some s else none
        | _ => none

/-- One step of accumulating a JavaScript `Set` in insertion order:
adding an element already present leaves the accumulator unchanged. -/
def insertUnique (acc : List String) (x : String) : List String :=
  if x ∈ acc then acc else acc ++ [x]

/-- `Array.from(set)` for a JavaScript `Set` built by successive `add` calls:
the distinct elements in first-insertion order. -/
def jsSetOrder (l : List String) : List String :=
  l.foldl insertUnique []

/-- Model of the comparator `(a, b) => a.localeCompare(b)` under the default
(root) locale, for ASCII strings: strings are compared primarily
case-insensitively (every character lowercased), and strings that are equal
after lowercasing are ordered by a deterministic tie-break (here code-point
order; ICU breaks such ties lowercase-first, a distinction immaterial to the
development below, which only relies on the case-insensitive primary level).
In particular this order, like the real comparator, is NOT code-point /
byte order: `localeCompare` places `"a"` before `"B"`. -/
def localeLe (a b : String) : Prop :=
  (jsToLowerCase a).data < (jsToLowerCase b).data ∨
    ((jsToLowerCase a).data = (jsToLowerCase b).data ∧ a.data ≤ b.data)

instance : DecidableRel localeLe := fun a b =>
  inferInstanceAs (Decidable ((jsToLowerCase a).data < (jsToLowerCase b).data ∨
    ((jsToLowerCase a).data = (jsToLowerCase b).data ∧ a.data ≤ b.data)))

/-- Embedding of `getSessionTouchedFiles`: collect the contributed paths into
a `Set` (first-insertion order, duplicate-free), then
`Array.from(files).sort((a, b) => a.localeCompare(b))`.  The sort is embedded
by insertion sort; because the modelled comparator is a total order
(antisymmetric), every comparison sort produces this same unique sorted
permutation. -/
def getSessionTouchedFiles (messages : List MessageLike) : List String :=
  List.insertionSort localeLe (jsSetOrder (messages.filterMap extractPath))

/-- Embedding of `countLineDifferences`: split both blobs on `'\n'`, then
count the occurrences of lines of one side whose text does not occur anywhere
on the other side (`Set.has` membership). -/
def countLineDifferences (original modified : String) : Nat × Nat :=
  let originalLines := jsSplit (Char.ofNat 10) original
  let modifiedLines := jsSplit (Char.ofNat 10) modified
  let additions := (modifiedLines.filter (fun line => !(originalLines.contains line))).length
  let deletions := (originalLines.filter (fun line => !(modifiedLines.contains line))).length
  (additions, deletions)

/-- Change classification returned by `getChangeStatus`. -/
inductive ChangeStatus where
  | modified
  | added
  | deleted
deriving DecidableEq, Repr

/-- Embedding of `getChangeStatus`, with JavaScript string truthiness
(`!s` iff `s` is empty) spelt out:
`if (!original && modified) return 'added';`
`if (original && !modified) return 'deleted';`
`return 'modified';`. -/
def getChangeStatus (original modified : String) : ChangeStatus :=
  if original = "" ∧ modified ≠ "" then ChangeStatus.added
  else if original ≠ "" ∧ modified = "" then ChangeStatus.deleted
  else ChangeStatus.modified

/-- Outcome of one external call (`execSync` or `fs.readFile`): either it
succeeds with captured output, or it fails for any reason — non-zero exit
(for `git show HEAD:path`, this includes the path being absent from the last
commit), a timeout, a spawn error, or output exceeding `maxBuffer`.  The
source observes failures only through the thrown exception, so all failure
modes collapse into one constructor. -/
inductive ExecOutcome where
  | ok (stdout : String)
  | failure
deriving DecidableEq, Repr

/-- Outcome of `git diff --quiet HEAD -- path`: exit 0 (no change, no throw),
exit 1 (a change, `execSync` throws), or any other failure (also throws). -/
inductive DiffQuietOutcome where
  | noChange
  | hasChange
  | failure
deriving DecidableEq, Repr

/-- Explicit environment for the effectful operations of `git.ts`: the
outcome of each external call, indexed by the arguments the source passes. -/
structure GitWorld where
  /-- Outcome of `git rev-parse --git-dir` run in a working directory. -/
  revParse : String → ExecOutcome
  /-- Outcome of `git show HEAD:"rel"` run in a working directory,
  for a repository-relative path. -/
  showFile : String → String → ExecOutcome
  /-- Outcome of `git diff --quiet HEAD -- "rel"` run in a working
  directory, for a repository-relative path. -/
  diffQuiet : String → String → DiffQuietOutcome
  /-- Result of `existsSync` for an absolute path. -/
  fileExists : String → Bool
  /-- Outcome of `fs.readFile(path, 'utf-8')`. -/
  readFile : String → ExecOutcome

/-- Model of Node's `path.isAbsolute` for POSIX paths. -/
def isAbsolutePath (p : String) : Bool :=
  match p.data with
  | c :: _ => c = (Char.ofNat 47)
  | [] => false

/-- Drop the longest common prefix of two segment lists. -/
def dropCommon : List String → List String → List String × List String
  | a :: as, b :: bs => if a = b then dropCommon as bs else (a :: as, b :: bs)
  | as, bs => (as, bs)

/-- Model of Node's `path.relative` for normalized absolute POSIX paths:
drop the shared leading segments, then climb out of what remains of the base
with `..` and descend into what remains of the target. -/
def nodeRelative (base target : String) : String :=
  let b := (jsSplit (Char.ofNat 47) base).filter (fun seg => seg ≠ "")
  let t := (jsSplit (Char.ofNat 47) target).filter (fun seg => seg ≠ "")
  let rest := dropCommon b t
  String.intercalate "/" (rest.1.map (fun _ => "..") ++ rest.2)

/-- Embedding of the path normalization both `getOriginalFromHead` and
`hasChanges` perform:
`isAbsolute(filePath) ? relative(workingDir, filePath) : filePath`. -/
def resolveRelative (workingDir filePath : String) : String :=
  if isAbsolutePath filePath then nodeRelative workingDir filePath else filePath

/-- Embedding of `isGitRepo`: true iff `git rev-parse --git-dir` succeeds;
the `catch` turns every failure into `false`. -/
def isGitRepo (w : GitWorld) (workingDir : String) : Bool :=
  match w.revParse workingDir with
  | ExecOutcome.ok _ => true
  | ExecOutcome.failure => false

/-- Embedding of `getOriginalFromHead`: `git show HEAD:"rel"` on the resolved
relative path; the `catch` turns every failure (file absent from HEAD, git
error, timeout, oversized output) into the empty string. -/
def getOriginalFromHead (w : GitWorld) (workingDir filePath : String) : String :=
  match w.showFile workingDir (resolveRelative workingDir filePath) with
  | ExecOutcome.ok content => content
  | ExecOutcome.failure => ""

/-- Embedding of `getCurrentFromDisk`: empty string when `existsSync` is
false, otherwise the file content, with the `catch` turning every read
failure into the empty string. -/
def getCurrentFromDisk (w : GitWorld) (filePath : String) : String :=
  if !(w.fileExists filePath) then ""
  else
    match w.readFile filePath with
    | ExecOutcome.ok content => content
    | ExecOutcome.failure => ""

/-- Embedding of `hasChanges`: `git diff --quiet HEAD -- "rel"` returns
`false` (no changes) exactly when the subprocess exits 0; exit 1 (a change)
and every other failure throw and are caught, yielding `true`. -/
def hasChanges (w : GitWorld) (workingDir filePath : String) : Bool :=
  match w.diffQuiet workingDir (resolveRelative workingDir filePath) with
  | DiffQuietOutcome.noChange => false
  | DiffQuietOutcome.hasChange => true
  | DiffQuietOutcome.failure => true

/-- Embedding of the `SessionFileChange` record of `ShikiDiffViewer.tsx`;
`error := none` models an absent optional `error` field. -/
structure SessionFileChange where
  filePath : String
  status : ChangeStatus
  additions : Nat
  deletions : Nat
  original : String
  modified : String
  error : Option String := none
deriving DecidableEq, Repr

/-- Embedding of `getFileDiff`: resolve both contents, return a zero-valued
placeholder when they are equal, otherwise assemble counts and status.  The
source never sets the `error` field on either path. -/
def getFileDiff (w : GitWorld) (workingDir filePath : String) : SessionFileChange :=
  let original := getOriginalFromHead w workingDir filePath
  let modified := getCurrentFromDisk w filePath
  if original = modified then
    { filePath := filePath
      status := ChangeStatus.modified
      additions := 0
      deletions := 0
      original := ""
      modified := ""
      error := none }
  else
    let counts := countLineDifferences original modified
    { filePath := filePath
      status := getChangeStatus original modified
      additions := counts.1
      deletions := counts.2
      original := original
      modified := modified
      error := none }

/-- Counting rule in the words of the spec sentence
"additions: count of lines present in modified's line-set but absent from
original's line-set" (and symmetrically for deletions), with each side
"treated as a set of distinct line contents": the cardinality of the
set difference of distinct lines.  Stated for comparison with
`countLineDifferences`; it is NOT the source's rule. -/
def setDiffCounts (original modified : String) : Nat × Nat :=
  let originalLines := jsSplit (Char.ofNat 10) original
  let modifiedLines := jsSplit (Char.ofNat 10) modified
  ((modifiedLines.dedup.filter (fun line => !(originalLines.contains line))).length,
   (originalLines.dedup.filter (fun line => !(modifiedLines.contains line))).length)

/-- One field under the rule in the words of the spec sentence "the first
present, non-empty, string value after trimming wins": a field yields a
value only when it holds a string that is non-empty after trimming. -/
def claimStringField (v : JValue) : Option String :=
  match v with
  | JValue.vStr s => if jsTrim s ≠ "" then some s else none
  | _ => none

/-- Path-field selection in the words of the claim: the first of the two
fields `file_path`, `path` (in that order) whose value is a string that is
non-empty after trimming; a non-string or trims-to-empty value is ignored
and the next field is considered.  Stated for comparison with `extractPath`;
it is NOT the source's rule. -/
def claimFieldRule (input : List (String × JValue)) : Option String :=
  match claimStringField (lookupField input "file_path") with
  | some s => some s
  | none => claimStringField (lookupField input "path")

/-- Concrete tool message (StoredMessage shape) editing the path `"B"`. -/
def touchedUpper : MessageLike :=
  { type? := some "tool", toolName? := some "edit",
    toolInput? := some [("file_path", JValue.vStr "B")] }

/-- Concrete tool message (Message shape) writing the path `"a"`. -/
def touchedLower : MessageLike :=
  { role? := some "tool", toolName? := some "Write",
    toolInput? := some [("path", JValue.vStr "a")] }

/-- Concrete edit tool message with a plain `file_path` field. -/
def simpleEditMsg : MessageLike :=
  { type? := some "tool", toolName? := some "edit",
    toolInput? := some [("file_path", JValue.vStr "/x")] }

/-- Concrete tool message whose tool (`Read`) is outside the allow-list,
though it carries a `file_path` field. -/
def readToolMsg : MessageLike :=
  { type? := some "tool", toolName? := some "Read",
    toolInput? := some [("file_path", JValue.vStr "/x")] }

/-- Tool input whose `file_path` is a whitespace-only string (truthy in
JavaScript) and whose `path` holds a usable path. -/
def blockedFallbackInput : List (String × JValue) :=
  [("file_path", JValue.vStr "  "), ("path", JValue.vStr "/a")]

/-- Concrete edit tool message carrying `blockedFallbackInput`. -/
def blockedFallbackMsg : MessageLike :=
  { type? := some "tool", toolName? := some "edit",
    toolInput? := some blockedFallbackInput }

/-- World in which every external call fails: not a git repository, no file
on disk. -/
def allFailWorld : GitWorld :=
  { revParse := fun _ => ExecOutcome.failure
    showFile := fun _ _ => ExecOutcome.failure
    diffQuiet := fun _ _ => DiffQuietOutcome.failure
    fileExists := fun _ => false
    readFile := fun _ => ExecOutcome.failure }

/-- World in which git calls fail but the disk holds the one-line content
`"x"` for every path. -/
def diskOnlyWorld : GitWorld :=
  { revParse := fun _ => ExecOutcome.failure
    showFile := fun _ _ => ExecOutcome.failure
    diffQuiet := fun _ _ => DiffQuietOutcome.failure
    fileExists := fun _ => true
    readFile := fun _ => ExecOutcome.ok "x" }

/-- World in which files exist on disk but every read of them fails. -/
def unreadableWorld : GitWorld :=
  { revParse := fun _ => ExecOutcome.failure
    showFile := fun _ _ => ExecOutcome.failure
    diffQuiet := fun _ _ => DiffQuietOutcome.failure
    fileExists := fun _ => true
    readFile := fun _ => ExecOutcome.failure }

/-- Membership in a fold of `insertUnique` is membership in the accumulator
or in the remaining input. -/
theorem mem_foldl_insertUnique (l : List String) (acc : List String) (x : String) :
    x ∈ l.foldl insertUnique acc ↔ x ∈ acc ∨ x ∈ l := by
  induction l generalizing acc with
  | nil => simp
  | cons a t ih =>
    rw [List.foldl_cons, ih]
    unfold insertUnique
    by_cases hax : a ∈ acc
    · simp only [if_pos hax, List.mem_cons]
      constructor
      · tauto
      · rintro (h | rfl | h)
        · exact Or.inl h
        · exact Or.inl hax
        · exact Or.inr h
    · simp only [if_neg hax, List.mem_append, List.mem_singleton, List.mem_cons]
      tauto

/-- A fold of `insertUnique` keeps the accumulator duplicate-free. -/
theorem nodup_foldl_insertUnique (l : List String) (acc : List String)
    (h : acc.Nodup) : (l.foldl insertUnique acc).Nodup := by
  induction l generalizing acc with
  | nil => exact h
  | cons a t ih =>
    rw [List.foldl_cons]
    apply ih
    unfold insertUnique
    by_cases hax : a ∈ acc
    · simpa [if_pos hax] using h
    · simp [if_neg hax, List.nodup_append, h, hax]

/-- The modelled JavaScript `Set` holds no duplicates. -/
theorem jsSetOrder_nodup (l : List String) : (jsSetOrder l).Nodup :=
  nodup_foldl_insertUnique l [] List.nodup_nil

/-- The modelled JavaScript `Set` holds exactly the added elements. -/
theorem mem_jsSetOrder (l : List String) (x : String) :
    x ∈ jsSetOrder l ↔ x ∈ l := by
  rw [jsSetOrder, mem_foldl_insertUnique]
  simp

instance : IsTotal String localeLe :=
  ⟨by
    intro a b
    rcases lt_trichotomy (jsToLowerCase a).data (jsToLowerCase b).data with h | h | h
    · exact Or.inl (Or.inl h)
    · rcases le_total a.data b.data with h2 | h2
      · exact Or.inl (Or.inr ⟨h, h2⟩)
      · exact Or.inr (Or.inr ⟨h.symm, h2⟩)
    · exact Or.inr (Or.inl h)⟩

instance : IsTrans String localeLe :=
  ⟨by
    intro a b c hab hbc
    rcases hab with h1 | ⟨e1, l1⟩ <;> rcases hbc with h2 | ⟨e2, l2⟩
    · exact Or.inl (lt_trans h1 h2)
    · exact Or.inl (lt_of_lt_of_le h1 (le_of_eq e2))
    · exact Or.inl (lt_of_le_of_lt (le_of_eq e1) h2)
    · exact Or.inr ⟨e1.trans e2, le_trans l1 l2⟩⟩

instance : IsAntisymm String localeLe :=
  ⟨by
    intro a b hab hba
    rcases hab with h1 | ⟨e1, l1⟩ <;> rcases hba with h2 | ⟨e2, l2⟩
    · exact absurd (lt_trans h1 h2) (lt_irrefl _)
    · exact absurd h1 (e2 ▸ lt_irrefl _)
    · exact absurd h2 (e1 ▸ lt_irrefl _)
    · exact String.toList_inj.mp (le_antisymm l1 l2)⟩

/-- Inversion of a successful path extraction: the message passed the
tool-message check and its lowercased tool name is in the allow-list. -/
theorem extractPath_eq_some {msg : MessageLike} {p : String}
    (h : extractPath msg = some p) :
    isToolMessage msg = true ∧
      ∃ tn, msg.toolName? = some tn ∧ jsToLowerCase tn ∈ FILE_MODIFYING_TOOLS := by
  by_cases h1 : isToolMessage msg
  · refine ⟨h1, ?_⟩
    cases hin : msg.toolInput? with
    | none => simp [extractPath, h1, hin] at h
    | some input =>
      cases hname : msg.toolName? with
      | none => simp [extractPath, h1, hin, hname] at h
      | some tn =>
        refine ⟨tn, rfl, ?_⟩
        simp [extractPath, h1, hin, hname] at h
        exact h.1.2
  · unfold extractPath at h
    rw [eq_false_of_ne_true h1] at h
    exact absurd h (by simp)

/-- Pointwise bridge between the source's `Set.has` membership test and
propositional list membership. -/
theorem not_contains_eq_decide (l : List String) (x : String) :
    (!(l.contains x)) = decide (x ∉ l) := by simp

/-- Filtering by non-membership is invariant in length under permuting
either the filtered list or the membership list. -/
theorem length_filter_not_contains_congr (la lb ka kb : List String)
    (hab : List.Perm la lb) (hk : List.Perm ka kb) :
    (ka.filter (fun line => !(la.contains line))).length =
      (kb.filter (fun line => !(lb.contains line))).length := by
  have h1 : (ka.filter (fun line => !(la.contains line))).length =
      (kb.filter (fun line => !(la.contains line))).length :=
    (hk.filter _).length_eq
  rw [h1]
  apply congrArg List.length
  apply List.filter_congr
  intro x _
  rw [not_contains_eq_decide, not_contains_eq_decide]
  exact decide_eq_decide.mpr (not_congr hab.mem_iff)

/-- C1 counterexample.  The claim reads the counts as cardinalities of
set differences of distinct lines; the source counts occurrences with
multiplicity.  At `original = "a"`, `modified = "b\nb"` the source reports
2 additions while the claimed set-difference cardinality is 1. -/
theorem countLineDifferences_ne_setDiffCounts :
    countLineDifferences "a" "b\nb" = (2, 1) ∧
    setDiffCounts "a" "b\nb" = (1, 1) ∧
    countLineDifferences "a" "b\nb" ≠ setDiffCounts "a" "b\nb" := by decide

/-- C1 (amended).  For every pair of text blobs, `countLineDifferences`
returns additions equal to the number of line occurrences (counted with
multiplicity) in `modified` whose text does not occur anywhere in
`original`, and deletions equal to the number of line occurrences in
`original` whose text does not occur anywhere in `modified`, where each
blob is split into lines on the newline character and absence is tested
against the other side's line-set (not a positional/LCS alignment). -/
theorem countLineDifferences_counts_occurrences (original modified : String) :
    countLineDifferences original modified =
      (((jsSplit (Char.ofNat 10) modified).filter
          (fun line => decide (line ∉ jsSplit (Char.ofNat 10) original))).length,
       ((jsSplit (Char.ofNat 10) original).filter
          (fun line => decide (line ∉ jsSplit (Char.ofNat 10) modified))).length) := by
  simp only [countLineDifferences, not_contains_eq_decide]

/-- C9.  Identical blobs diff to `(0, 0)`; the result is invariant under
permutation of the lines within either blob; and the concrete reordering
`"x\ny"` vs `"y\nx"` yields `(0, 0)`. -/
theorem countLineDifferences_set_based :
    (∀ a : String, countLineDifferences a a = (0, 0)) ∧
    (∀ o₁ o₂ m₁ m₂ : String,
      List.Perm (jsSplit (Char.ofNat 10) o₁) (jsSplit (Char.ofNat 10) o₂) →
      List.Perm (jsSplit (Char.ofNat 10) m₁) (jsSplit (Char.ofNat 10) m₂) →
      countLineDifferences o₁ m₁ = countLineDifferences o₂ m₂) ∧
    countLineDifferences "x\ny" "y\nx" = (0, 0) := by
  refine ⟨?_, ?_, by decide⟩
  · intro a
    have h : ∀ l : List String, l.filter (fun line => !(l.contains line)) = [] := by
      intro l
      apply List.filter_eq_nil_iff.mpr
      intro x hx
      simp [hx]
    simp [countLineDifferences, h]
  · intro o₁ o₂ m₁ m₂ ho hm
    unfold countLineDifferences
    exact congrArg₂ Prod.mk
      (length_filter_not_contains_congr _ _ _ _ ho hm)
      (length_filter_not_contains_congr _ _ _ _ hm ho)

/-- C9 witness: the permutation-invariance part applied at the concrete
reordered blobs `"x\ny"` and `"y\nx"` against a fixed other side, and the
identical-blob part at `"q"`. -/
theorem countLineDifferences_set_based_witness :
    countLineDifferences "q" "q" = (0, 0) ∧
    countLineDifferences "x\ny" "ab" = countLineDifferences "y\nx" "ab" :=
  ⟨countLineDifferences_set_based.1 "q",
   countLineDifferences_set_based.2.1 "x\ny" "y\nx" "ab" "ab" (by decide)
     (List.Perm.refl _)⟩

/-- C6.  `getChangeStatus` returns `added` iff the original is empty and the
modified is non-empty, `deleted` iff the original is non-empty and the
modified is empty, and `modified` otherwise (including both-empty). -/
theorem getChangeStatus_classification (original modified : String) :
    ((getChangeStatus original modified = ChangeStatus.added) ↔
      (original = "" ∧ modified ≠ "")) ∧
    ((getChangeStatus original modified = ChangeStatus.deleted) ↔
      (original ≠ "" ∧ modified = "")) ∧
    (¬(original = "" ∧ modified ≠ "") → ¬(original ≠ "" ∧ modified = "") →
      getChangeStatus original modified = ChangeStatus.modified) := by
  unfold getChangeStatus
  by_cases ho : original = "" <;> by_cases hm : modified = "" <;> simp [ho, hm]

/-- C6 witness: the three concrete examples of the spec. -/
theorem getChangeStatus_classification_witness :
    getChangeStatus "" "hello" = ChangeStatus.added ∧
    getChangeStatus "hello" "" = ChangeStatus.deleted ∧
    getChangeStatus "a" "b" = ChangeStatus.modified :=
  ⟨(getChangeStatus_classification "" "hello").1.mpr ⟨rfl, by decide⟩,
   (getChangeStatus_classification "hello" "").2.1.mpr ⟨by decide, rfl⟩,
   (getChangeStatus_classification "a" "b").2.2 (by decide) (by decide)⟩

/-- C2 (amended).  For every message sequence, `getSessionTouchedFiles`
returns a duplicate-free list sorted ascending for the locale-aware
comparator the source passes to `sort` (modelled by `localeLe`:
case-insensitive at the primary level), which is not case-sensitive byte
order. -/
theorem getSessionTouchedFiles_nodup_sorted (messages : List MessageLike) :
    (getSessionTouchedFiles messages).Nodup ∧
    List.Sorted localeLe (getSessionTouchedFiles messages) :=
  ⟨((List.perm_insertionSort localeLe _).nodup_iff).mpr (jsSetOrder_nodup _),
   List.sorted_insertionSort localeLe _⟩

/-- C2 counterexample.  On a session touching `"B"` then `"a"`, the source's
locale-aware sort returns `["a", "B"]`, which is not sorted ascending in
case-sensitive byte (code-point) order, since `'a'` (0x61) > `'B'` (0x42). -/
theorem getSessionTouchedFiles_not_byte_order :
    getSessionTouchedFiles [touchedUpper, touchedLower] = ["a", "B"] ∧
    ¬ List.Sorted (fun x y : String => x.data ≤ y.data)
      (getSessionTouchedFiles [touchedUpper, touchedLower]) := by decide

/-- C10.  `getSessionTouchedFiles` is invariant under permutation of the
message sequence: the output depends only on the multiset of messages. -/
theorem getSessionTouchedFiles_perm_invariant (ms₁ ms₂ : List MessageLike)
    (h : List.Perm ms₁ ms₂) :
    getSessionTouchedFiles ms₁ = getSessionTouchedFiles ms₂ := by
  have hp : List.Perm (ms₁.filterMap extractPath) (ms₂.filterMap extractPath) :=
    h.filterMap _
  have hq : List.Perm (jsSetOrder (ms₁.filterMap extractPath))
      (jsSetOrder (ms₂.filterMap extractPath)) := by
    rw [List.perm_ext_iff_of_nodup (jsSetOrder_nodup _) (jsSetOrder_nodup _)]
    intro x
    rw [mem_jsSetOrder, mem_jsSetOrder]
    exact hp.mem_iff
  exact List.eq_of_perm_of_sorted
    ((List.perm_insertionSort localeLe _).trans
      (hq.trans (List.perm_insertionSort localeLe _).symm))
    (List.sorted_insertionSort localeLe _)
    (List.sorted_insertionSort localeLe _)

/-- C10 witness: swapping two concrete messages leaves the output
unchanged. -/
theorem getSessionTouchedFiles_perm_invariant_witness :
    getSessionTouchedFiles [touchedUpper, touchedLower] =
      getSessionTouchedFiles [touchedLower, touchedUpper] :=
  getSessionTouchedFiles_perm_invariant _ _ (by decide)

/-- C7 counterexample.  With `file_path` holding the whitespace-only string
`"  "` (truthy in JavaScript) and `path` holding `"/a"`, the claim's rule
falls through to `path` and yields `"/a"`, but the source's
`file_path || path` selects the whitespace string, which then fails the
trim check, so the message contributes nothing. -/
theorem extractPath_ne_claimFieldRule :
    extractPath blockedFallbackMsg = none ∧
    claimFieldRule blockedFallbackInput = some "/a" ∧
    extractPath blockedFallbackMsg ≠ claimFieldRule blockedFallbackInput := by
  decide

/-- C7 (amended).  For every qualifying tool message, the candidate value is
chosen by JavaScript truthiness — `file_path`'s value if truthy, otherwise
`path`'s value — and the message contributes that single candidate exactly
when it is a string that is non-empty after trimming; a truthy `file_path`
that is a non-string or trims to empty blocks any fallback to `path`. -/
theorem extractPath_jsOr_semantics (msg : MessageLike)
    (input : List (String × JValue)) (tn : String)
    (hin : msg.toolInput? = some input) (htool : isToolMessage msg = true)
    (hname : msg.toolName? = some tn) (hne : jsToLowerCase tn ≠ "")
    (hmem : jsToLowerCase tn ∈ FILE_MODIFYING_TOOLS) :
    extractPath msg =
      match jsOr (lookupField input "file_path") (lookupField input "path") with
      | JValue.vStr s => if jsTrim s ≠ "" then some s else none
      | _ => none := by
  have hc : FILE_MODIFYING_TOOLS.contains (jsToLowerCase tn) = true :=
    List.elem_iff.mpr hmem
  simp only [extractPath, htool, hin, hname, hne, hc]
  simp [extractPath, htool, hin, hname, hne, hc]

/-- C7 witness: a qualifying edit message with a plain string `file_path`
contributes that path. -/
theorem extractPath_jsOr_semantics_witness :
    extractPath simpleEditMsg = some "/x" := by
  have h := extractPath_jsOr_semantics simpleEditMsg
    [("file_path", JValue.vStr "/x")] "edit" rfl (by decide) rfl (by decide)
    (by decide)
  exact h.trans (by decide)

/-- C8.  Every path in the output of `getSessionTouchedFiles` comes from a
message that passed the tool-message check (legacy `type`/`role` shapes)
and whose lowercased tool name is in the allow-list `{edit, write,
multiedit}`; and a message whose lowercased tool name is outside the
allow-list contributes no path, whatever fields it carries. -/
theorem touchedFiles_allow_list :
    (∀ (messages : List MessageLike) (p : String),
      p ∈ getSessionTouchedFiles messages →
      ∃ msg ∈ messages, extractPath msg = some p ∧ isToolMessage msg = true ∧
        ∃ tn, msg.toolName? = some tn ∧
          jsToLowerCase tn ∈ FILE_MODIFYING_TOOLS) ∧
    (∀ (msg : MessageLike) (tn : String), msg.toolName? = some tn →
      jsToLowerCase tn ∉ FILE_MODIFYING_TOOLS → extractPath msg = none) := by
  constructor
  · intro messages p hp
    have hp2 : p ∈ jsSetOrder (messages.filterMap extractPath) :=
      (List.mem_insertionSort localeLe).mp hp
    rw [mem_jsSetOrder] at hp2
    rcases List.mem_filterMap.mp hp2 with ⟨msg, hmsg, hext⟩
    rcases extractPath_eq_some hext with ⟨h1, tn, h2, h3⟩
    exact ⟨msg, hmsg, hext, h1, tn, h2, h3⟩
  · intro msg tn hname hmem
    by_cases h1 : isToolMessage msg
    · cases hin : msg.toolInput? with
      | none => simp [extractPath, h1, hin]
      | some input =>
        have hc : FILE_MODIFYING_TOOLS.contains (jsToLowerCase tn) = false := by
          cases h : FILE_MODIFYING_TOOLS.contains (jsToLowerCase tn)
          · rfl
          · exact absurd (List.elem_iff.mp h) hmem
        simp [extractPath, h1, hin, hname, hc]
        exact fun _ hx => absurd hx hmem
    · simp [extractPath, eq_false_of_ne_true h1]

/-- C8 witness: the path of a concrete allow-listed edit message is traced
back to it, and a concrete `Read` tool message contributes nothing despite
carrying a `file_path`. -/
theorem touchedFiles_allow_list_witness :
    (∃ msg ∈ [simpleEditMsg], extractPath msg = some "/x" ∧
      isToolMessage msg = true ∧
      ∃ tn, msg.toolName? = some tn ∧
        jsToLowerCase tn ∈ FILE_MODIFYING_TOOLS) ∧
    extractPath readToolMsg = none :=
  ⟨touchedFiles_allow_list.1 [simpleEditMsg] "/x" (by decide),
   touchedFiles_allow_list.2 readToolMsg "Read" rfl (by decide)⟩

/-- C3.  When the resolved committed content equals the resolved disk
content byte-for-byte, `getFileDiff` returns the zero-valued placeholder
(zero counts, both snapshots empty); otherwise it returns the counts
computed by `countLineDifferences` and the status computed by
`getChangeStatus` on the two contents. -/
theorem getFileDiff_placeholder_or_counts (w : GitWorld) (wd fp : String) :
    (getOriginalFromHead w wd fp = getCurrentFromDisk w fp →
      getFileDiff w wd fp =
        { filePath := fp, status := ChangeStatus.modified, additions := 0,
          deletions := 0, original := "", modified := "", error := none }) ∧
    (getOriginalFromHead w wd fp ≠ getCurrentFromDisk w fp →
      getFileDiff w wd fp =
        { filePath := fp
          status := getChangeStatus (getOriginalFromHead w wd fp)
            (getCurrentFromDisk w fp)
          additions := (countLineDifferences (getOriginalFromHead w wd fp)
            (getCurrentFromDisk w fp)).1
          deletions := (countLineDifferences (getOriginalFromHead w wd fp)
            (getCurrentFromDisk w fp)).2
          original := getOriginalFromHead w wd fp
          modified := getCurrentFromDisk w fp
          error := none }) := by
  constructor <;> intro h <;> simp [getFileDiff, h]

/-- C3 witness: the equal-contents branch at a world where every retrieval
fails (both contents resolve to `""`), and the differing branch at a world
whose disk holds `"x"` while git has nothing. -/
theorem getFileDiff_placeholder_or_counts_witness :
    getFileDiff allFailWorld "/w" "/w/f" =
      { filePath := "/w/f", status := ChangeStatus.modified, additions := 0,
        deletions := 0, original := "", modified := "", error := none } ∧
    getFileDiff diskOnlyWorld "/w" "/w/f" =
      { filePath := "/w/f", status := ChangeStatus.added, additions := 1,
        deletions := 1, original := "", modified := "x", error := none } :=
  ⟨(getFileDiff_placeholder_or_counts allFailWorld "/w" "/w/f").1 (by decide),
   ((getFileDiff_placeholder_or_counts diskOnlyWorld "/w" "/w/f").2
     (by decide)).trans (by decide)⟩

/-- C4 counterexample.  In a world where both the git retrieval and the disk
retrieval of `"/w/f"` fail, the produced entry's `error` field is `none` —
not a diagnostic string, contrary to the claim. -/
theorem getFileDiff_error_not_populated :
    allFailWorld.showFile "/w" (resolveRelative "/w" "/w/f") =
      ExecOutcome.failure ∧
    allFailWorld.fileExists "/w/f" = false ∧
    (getFileDiff allFailWorld "/w" "/w/f").error = none := by decide

/-- C4 (amended).  For every file, including every file whose content
retrieval fails, `getFileDiff` still produces an entry for that file (its
`filePath` is preserved, so the file appears in the report rather than
aborting it), but retrieval failures are swallowed into empty content and
the `error` field is never populated. -/
theorem getFileDiff_entry_error_none (w : GitWorld) (workingDir filePath : String) :
    (getFileDiff w workingDir filePath).filePath = filePath ∧
    (getFileDiff w workingDir filePath).error = none := by
  by_cases h : getOriginalFromHead w workingDir filePath =
      getCurrentFromDisk w filePath <;>
    simp [getFileDiff, h]

/-- C5.  No resolver operation propagates a failure: `getOriginalFromHead`
resolves to `""` on any git failure, `getCurrentFromDisk` resolves to `""`
when the file is missing or unreadable, `isGitRepo` returns `false` on any
failure, and `hasChanges` returns `false` exactly when the quiet diff
reports no change, returning `true` on any error. -/
theorem gitOps_fail_soft (w : GitWorld) (wd fp : String) :
    (w.showFile wd (resolveRelative wd fp) = ExecOutcome.failure →
      getOriginalFromHead w wd fp = "") ∧
    (w.fileExists fp = false → getCurrentFromDisk w fp = "") ∧
    (w.readFile fp = ExecOutcome.failure → getCurrentFromDisk w fp = "") ∧
    (w.revParse wd = ExecOutcome.failure → isGitRepo w wd = false) ∧
    ((hasChanges w wd fp = false) ↔
      w.diffQuiet wd (resolveRelative wd fp) = DiffQuietOutcome.noChange) ∧
    (w.diffQuiet wd (resolveRelative wd fp) = DiffQuietOutcome.failure →
      hasChanges w wd fp = true) := by
  refine ⟨?_, ?_, ?_, ?_, ?_, ?_⟩
  · intro h; simp [getOriginalFromHead, h]
  · intro h; simp [getCurrentFromDisk, h]
  · intro h
    unfold getCurrentFromDisk
    cases hex : w.fileExists fp <;> simp [hex, h]
  · intro h; simp [isGitRepo, h]
  · unfold hasChanges
    cases hd : w.diffQuiet wd (resolveRelative wd fp) <;> simp [hd]
  · intro h; simp [hasChanges, h]

/-- C5 witness: all failure branches evaluated in concrete worlds — git
failures, a missing file, an unreadable file, and a failing quiet diff. -/
theorem gitOps_fail_soft_witness :
    getOriginalFromHead allFailWorld "/w" "/w/f" = "" ∧
    getCurrentFromDisk allFailWorld "/w/f" = "" ∧
    getCurrentFromDisk unreadableWorld "/w/f" = "" ∧
    isGitRepo allFailWorld "/w" = false ∧
    ((hasChanges allFailWorld "/w" "/w/f" = false) ↔
      allFailWorld.diffQuiet "/w" (resolveRelative "/w" "/w/f") =
        DiffQuietOutcome.noChange) ∧
    hasChanges allFailWorld "/w" "/w/f" = true :=
  ⟨(gitOps_fail_soft allFailWorld "/w" "/w/f").1 rfl,
   (gitOps_fail_soft allFailWorld "/w" "/w/f").2.1 rfl,
   (gitOps_fail_soft unreadableWorld "/w" "/w/f").2.2.1 rfl,
   (gitOps_fail_soft allFailWorld "/w" "/w/f").2.2.2.1 rfl,
   (gitOps_fail_soft allFailWorld "/w" "/w/f").2.2.2.2.1,
   (gitOps_fail_soft allFailWorld "/w" "/w/f").2.2.2.2.2 rfl⟩

end Craft
